import Mathlib

/-!
Shallow embedding of the `ffxl` feature-flag library (TypeScript).

The embedding follows the source files:
  - `src/types.ts` — data model (`FeatureFlagConfig`, `FeatureFlagsConfig`,
    `UserIdentity`);
  - `src/config.ts` — the Config Store (`getConfig`, `clearCache`), modelled
    as explicit state passing over the cache slot and the process environment;
  - `src/evaluator.ts` — `isFeatureEnabled` and the batch operations;
  - `src/loader.ts` — validation (`validateFeatureConfig`, `validateConfig`)
    over raw parsed documents, and `loadFeatureFlags`.

External collaborators (the process environment, `fs`, `js-yaml`, the
JSON builtins) are modelled as explicit inputs: optional strings for
environment variables and function-valued fields or parameters for file
access and parsing.  JavaScript truthiness is modelled explicitly where the
source relies on it (empty strings and `undefined` are falsy; objects and
arrays are truthy).
-/

/-- Raw JSON/YAML-like value, the result of the external parsers.  Numbers
are modelled as integers; no claim depends on non-integral numerics. -/
inductive JVal where
  | null : JVal
  | bool (b : Bool) : JVal
  | num (n : Int) : JVal
  | str (s : String) : JVal
  | arr (xs : List JVal) : JVal
  | obj (fields : List (String × JVal)) : JVal
deriving Repr

/-- Structural boolean equality on raw values (element-wise on arrays and
field-wise, order-sensitive, on objects). -/
def JVal.beq : JVal → JVal → Bool
  | .null, .null => true
  | .bool a, .bool b => a == b
  | .num a, .num b => a == b
  | .str a, .str b => a == b
  | .arr xs, .arr ys =>
    (match xs, ys with
     | [], [] => true
     | x :: xs, y :: ys => JVal.beq x y && JVal.beq (.arr xs) (.arr ys)
     | _, _ => false)
  | .obj fs, .obj gs =>
    (match fs, gs with
     | [], [] => true
     | (k, v) :: fs, (l, w) :: gs =>
       k == l && JVal.beq v w && JVal.beq (.obj fs) (.obj gs)
     | _, _ => false)
  | _, _ => false

instance : BEq JVal := ⟨JVal.beq⟩

/-- Boolean equality with the literal `JVal.bool true` coincides with
propositional equality (the only `JVal` comparison the evaluator makes,
modelling `=== true`). -/
theorem JVal.beq_bool_true_iff (v : JVal) :
    (v == JVal.bool true) = true ↔ v = JVal.bool true := by
  cases v <;> simp [JVal.beq, (· == ·)]

/-- JS truthiness of an optional string: `undefined` and the empty string
are falsy (used for `process.env.X || process.env.Y` and `user?.userId`). -/
def strTruthy : Option String → Bool
  | none => false
  | some s => !(s == "")

/-- `UserIdentity` from `src/types.ts`: all three fields optional. -/
structure UserIdentity where
  userId : Option String
  handle : Option String
  email : Option String
deriving Repr

/-- `FeatureFlagConfig` from `src/types.ts`.  The `enabled` field is kept at
the raw JSON-value level because the Config Store (`src/config.ts`) stores
the parsed transport string without re-validating it, so at evaluation time
`enabled` may hold any JSON value; a well-typed rule has `some (JVal.bool b)`
or `none` there. -/
structure FeatureFlagConfig where
  enabled : Option JVal
  onlyForUserIds : Option (List String)
  comment : Option String
deriving Repr

/-- `FeatureFlagsConfig` from `src/types.ts`: map from feature name to rule,
modelled as an association list in key order. -/
structure FeatureFlagsConfig where
  features : List (String × FeatureFlagConfig)
deriving Repr

/-- The empty configuration used by the Config Store on recoverable
failures (`features` mapping empty). -/
def emptyConfig : FeatureFlagsConfig := ⟨[]⟩

/-- `config.features[featureName]` — first binding for the name, `none`
when absent (JS `undefined`, which is falsy). -/
def lookupFeature (config : FeatureFlagsConfig) (featureName : String) :
    Option FeatureFlagConfig :=
  config.features.lookup featureName

/-- The `enabled`-flag branch of `isFeatureEnabled` (`src/evaluator.ts`
lines 27-31): if `enabled` is a present key, return `feature.enabled === true`
(strict equality against the boolean `true`); otherwise return `false`. -/
def enabledFlag (feature : FeatureFlagConfig) : Bool :=
  match feature.enabled with
  | some v => v == JVal.bool true
  | none => false

/-- `isFeatureEnabled` from `src/evaluator.ts`, applied to the configuration
returned by `getConfig()`.  The function is total by construction, matching
the source's catch-all that downgrades any evaluation failure to `false`:
absent feature (falsy lookup) gives `false`; a present, non-empty
`onlyForUserIds` list gives `false` when `user?.userId` is falsy (user
absent, `userId` absent, or `userId` the empty string) and otherwise tests
exact membership of the id in the list; otherwise the `enabled` flag is
consulted. -/
def isFeatureEnabled (config : FeatureFlagsConfig) (featureName : String)
    (user : Option UserIdentity) : Bool :=
  match lookupFeature config featureName with
  | none => false
  | some feature =>
    match feature.onlyForUserIds with
    | some ids =>
      if ids.length > 0 then
        match user with
        | none => false
        | some u =>
          match u.userId with
          | none => false
          | some uid => if uid == "" then false else ids.contains uid
      else
        enabledFlag feature
    | none => enabledFlag feature

/-- `isAnyFeatureEnabled` from `src/evaluator.ts`:
`featureNames.some((name) => isFeatureEnabled(name, user))`. -/
def isAnyFeatureEnabled (config : FeatureFlagsConfig)
    (featureNames : List String) (user : Option UserIdentity) : Bool :=
  featureNames.any (fun name => isFeatureEnabled config name user)

/-- `areAllFeaturesEnabled` from `src/evaluator.ts`:
`featureNames.every((name) => isFeatureEnabled(name, user))`. -/
def areAllFeaturesEnabled (config : FeatureFlagsConfig)
    (featureNames : List String) (user : Option UserIdentity) : Bool :=
  featureNames.all (fun name => isFeatureEnabled config name user)

/-- The two transport environment variables read by `getConfig`
(`src/config.ts`): `FEATURE_FLAGS_CONFIG` and `FFXL_CONFIG`, each possibly
undefined. -/
structure EnvVars where
  featureFlagsConfigVar : Option String
  ffxlConfigVar : Option String
deriving Repr

/-- `process.env.FEATURE_FLAGS_CONFIG || process.env.FFXL_CONFIG` with JS
`||` semantics: the first variable wins when it is truthy (defined and
non-empty), otherwise the second is used as-is. -/
def transportString (env : EnvVars) : Option String :=
  if strTruthy env.featureFlagsConfigVar then env.featureFlagsConfigVar
  else env.ffxlConfigVar

/-- `getConfig` from `src/config.ts` as a state transformer over the single
cache slot.  `parse` models the external `JSON.parse` builtin composed with
the unchecked cast to `FeatureFlagsConfig` (`none` = parse throws).  Returns
the configuration handed to the caller together with the new cache
contents.  Every path returns: a missing or falsy transport string, and a
parse failure, both populate the cache with the empty configuration — the
call never raises. -/
def getConfig (parse : String → Option FeatureFlagsConfig) (env : EnvVars)
    (cache : Option FeatureFlagsConfig) :
    FeatureFlagsConfig × Option FeatureFlagsConfig :=
  match cache with
  | some c => (c, some c)
  | none =>
    match transportString env with
    | none => (emptyConfig, some emptyConfig)
    | some s =>
      if s == "" then (emptyConfig, some emptyConfig)
      else
        match parse s with
        | none => (emptyConfig, some emptyConfig)
        | some parsed => (parsed, some parsed)

/-- `clearCache` from `src/config.ts`: resets the slot to empty. -/
def clearCache (_cache : Option FeatureFlagsConfig) :
    Option FeatureFlagsConfig :=
  none

/-- `typeof v === 'object' && v !== null` as the validator tests it
(`src/loader.ts` lines 33, 75, 83): in JS both plain objects and arrays have
`typeof` equal to `'object'`; `null` does too but is excluded by the
explicit null check, so only objects and arrays pass. -/
def jsIsNonNullObject : JVal → Bool
  | .obj _ => true
  | .arr _ => true
  | _ => false

/-- JS `typeof` on a raw value. -/
def jsTypeof : JVal → String
  | .null => "object"
  | .bool _ => "boolean"
  | .num _ => "number"
  | .str _ => "string"
  | .arr _ => "object"
  | .obj _ => "object"

/-- JS `typeof` on a property-access result (`undefined` for a missing
property). -/
def jsTypeofOpt : Option JVal → String
  | none => "undefined"
  | some v => jsTypeof v

/-- JS `key in v` for the object-like values the validator reaches: key
lookup on objects; on arrays only `length` and in-range numeric indices are
own/inherited keys (the validator only ever asks for the non-numeric keys
`enabled`, `onlyForUserIds`, `comment` and `features`). -/
def jsHasProp : JVal → String → Bool
  | .obj fields, k => fields.any (fun p => p.1 == k)
  | .arr xs, k =>
    k == "length" ||
      (match k.toNat? with
       | some i => decide (i < xs.length)
       | none => false)
  | _, _ => false

/-- JS property access `v[k]` for the values the validator reaches
(`none` = `undefined`). -/
def jsGetProp : JVal → String → Option JVal
  | .obj fields, k => fields.lookup k
  | .arr xs, k =>
    if k == "length" then some (.num (xs.length : Int))
    else
      (match k.toNat? with
       | some i => xs.get? i
       | none => none)
  | _, _ => none

/-- `Array.isArray(x)` on a property-access result. -/
def jsIsArray : Option JVal → Bool
  | some (.arr _) => true
  | _ => false

/-- `Object.entries(v)`: key/value pairs of an object in insertion order;
index/value pairs for an array. -/
def jsEntries : JVal → List (String × JVal)
  | .obj fields => fields
  | .arr xs => (List.range xs.length).zip xs |>.map (fun p => (toString p.1, p.2))
  | _ => []

/-- `validateFeatureConfig` from `src/loader.ts` (lines 29-69): shape checks
for a single feature entry, in source order, stopping at the first failure;
the error carries the thrown `FeatureFlagValidationError`'s message. -/
def validateFeatureConfig (name : String) (config : JVal) :
    Except String Unit :=
  if !(jsIsNonNullObject config) then
    Except.error ("Feature \"" ++ name ++ "\" must be an object")
  else
    let hasEnabled := jsHasProp config "enabled"
    let hasOnlyForUserIds := jsHasProp config "onlyForUserIds"
    if !hasEnabled && !hasOnlyForUserIds then
      Except.error
        ("Feature \"" ++ name ++
          "\" must have either \"enabled\" or \"onlyForUserIds\" property")
    else if hasEnabled && !(jsTypeofOpt (jsGetProp config "enabled") == "boolean") then
      Except.error ("Feature \"" ++ name ++ "\": \"enabled\" must be a boolean")
    else if hasOnlyForUserIds && !(jsIsArray (jsGetProp config "onlyForUserIds")) then
      Except.error ("Feature \"" ++ name ++ "\": \"onlyForUserIds\" must be an array")
    else if hasOnlyForUserIds &&
        !((match jsGetProp config "onlyForUserIds" with
           | some (.arr xs) => xs.all (fun id => jsTypeof id == "string")
           | _ => true)) then
      Except.error
        ("Feature \"" ++ name ++ "\": all items in \"onlyForUserIds\" must be strings")
    else if jsHasProp config "comment" &&
        !(jsTypeofOpt (jsGetProp config "comment") == "string") then
      Except.error ("Feature \"" ++ name ++ "\": \"comment\" must be a string")
    else
      Except.ok ()

/-- `validateConfig` from `src/loader.ts` (lines 74-91): top-level shape
checks, then each feature entry in order; the `Except` monad propagates the
first failure (fail-fast). -/
def validateConfig (data : JVal) : Except String Unit :=
  if !(jsIsNonNullObject data) then
    Except.error ("Configuration must be an object")
  else if !(jsHasProp data "features") then
    Except.error ("Configuration must have a \"features\" property")
  else if !((jsGetProp data "features").any jsIsNonNullObject) then
    Except.error ("\"features\" must be an object")
  else
    (jsEntries ((jsGetProp data "features").getD JVal.null)).forM
      (fun entry => validateFeatureConfig entry.1 entry.2)

/-- Error kinds `loadFeatureFlags` can fail with: the repository defines a
single custom error class `FeatureFlagValidationError` (`src/types.ts`);
the environment guard throws a plain `Error`.  Each constructor carries the
message. -/
inductive LoadError where
  | validationError (msg : String) : LoadError
  | genericError (msg : String) : LoadError
deriving Repr, DecidableEq

/-- Inputs `loadFeatureFlags` reads from its environment: the detected
execution environment, the two path-override variables, the working
directory, and the external file-system and YAML collaborators.  `yamlLoad`
models `yaml.load` (`Except.error` = a thrown `YAMLException` with that
message). -/
structure LoaderWorld where
  isNode : Bool
  featureFlagsFileVar : Option String
  ffxlFileVar : Option String
  cwd : String
  fileExists : String → Bool
  readFile : String → String
  yamlLoad : String → Except String JVal

/-- `path.isAbsolute` (POSIX model). -/
def pathIsAbsolute (p : String) : Bool :=
  p.startsWith ("/")

/-- `path.join(a, b)` (POSIX model, no normalization needed for the paths
the loader builds). -/
def pathJoin (a b : String) : String :=
  a ++ "/" ++ b

/-- `getFeatureFlagsPath` from `src/loader.ts` (lines 11-24):
`FEATURE_FLAGS_FILE || FFXL_FILE` with JS truthiness, resolved against the
working directory unless absolute; default `feature-flags.yaml` in the
working directory. -/
def getFeatureFlagsPath (w : LoaderWorld) : String :=
  let envPath :=
    if strTruthy w.featureFlagsFileVar then w.featureFlagsFileVar
    else w.ffxlFileVar
  match envPath with
  | some p =>
    if p == "" then pathJoin w.cwd ("feature-flags.yaml")
    else if pathIsAbsolute p then p
    else pathJoin w.cwd p
  | none => pathJoin w.cwd ("feature-flags.yaml")

/-- `loadFeatureFlags` from `src/loader.ts` (lines 97-139).  The guard for a
non-Node environment throws a plain `Error`; a missing file throws a
`FeatureFlagValidationError` (rethrown unchanged by the catch block); a
YAML parse failure is wrapped into a `FeatureFlagValidationError`;
validation failures propagate as `FeatureFlagValidationError`.  On success
the raw parsed document is returned unchanged (the cast performs no
conversion). -/
def loadFeatureFlags (w : LoaderWorld) : Except LoadError JVal :=
  if !w.isNode then
    Except.error
      (LoadError.genericError
        ("loadFeatureFlags() can only be called in Node.js environment"))
  else
    let filePath := getFeatureFlagsPath w
    if !(w.fileExists filePath) then
      Except.error
        (LoadError.validationError ("Feature flags file not found: " ++ filePath))
    else
      match w.yamlLoad (w.readFile filePath) with
      | Except.error msg =>
        Except.error (LoadError.validationError ("Invalid YAML syntax: " ++ msg))
      | Except.ok data =>
        match validateConfig data with
        | Except.error msg => Except.error (LoadError.validationError msg)
        | Except.ok _ => Except.ok data

/-- The serialization step of `loadFeatureFlagsAsString` (`src/loader.ts`
lines 145-148): `JSON.stringify` — an external builtin, passed in as
`stringify` — applied to the successfully loaded configuration. -/
def loadFeatureFlagsAsStringOf (stringify : FeatureFlagsConfig → String)
    (cfg : FeatureFlagsConfig) : String :=
  stringify cfg

/-- What `validateConfig` guarantees about a feature rule, restated at the
typed level of `FeatureFlagConfig`: at least one of `enabled` and
`onlyForUserIds` is present, and `enabled`, when present, is a boolean. -/
def validRule (r : FeatureFlagConfig) : Bool :=
  (r.enabled.isSome || r.onlyForUserIds.isSome) &&
    (match r.enabled with
     | some (JVal.bool _) => true
     | some _ => false
     | none => true)

/-- A typed configuration every rule of which satisfies `validRule`: the
image of validation at the typed level ("passes validation"). -/
def validConfigStruct (c : FeatureFlagsConfig) : Bool :=
  c.features.all (fun p => validRule p.2)

def ruleEmptyIdOnly : FeatureFlagConfig := ⟨none, some [""], none⟩

def cfgEmptyIdOnly : FeatureFlagsConfig := ⟨[("beta", ruleEmptyIdOnly)]⟩

def userEmptyId : UserIdentity := ⟨some (""), none, none⟩

/-- C1 counterexample: in the configuration whose rule for `beta` is
`onlyForUserIds = [""]` (non-empty), the supplied user's `userId` is `""`,
which appears in the list by exact string match, yet `isFeatureEnabled`
returns `false` — the optional-chaining truthiness test `user?.userId`
treats the empty string like a missing id, so the claimed "if and only if"
fails in this direction. -/
theorem isFeatureEnabled_userlist_empty_string_cex :
    lookupFeature cfgEmptyIdOnly "beta" = some ruleEmptyIdOnly
    ∧ ruleEmptyIdOnly.onlyForUserIds = some [""]
    ∧ userEmptyId.userId = some ("")
    ∧ "" ∈ [""]
    ∧ isFeatureEnabled cfgEmptyIdOnly "beta" (some userEmptyId) = false := by
  refine ⟨rfl, rfl, rfl, by simp, rfl⟩

/-- C1 (amended): for every configuration whose rule for a feature has a
non-empty `onlyForUserIds` list, `isFeatureEnabled` returns `true` iff a
user is supplied whose `userId` is present, non-empty, and appears in that
list (exact string match), regardless of the rule's `enabled` value; when
the user is absent, has no `userId`, or its `userId` is the empty string,
it returns `false`. -/
theorem isFeatureEnabled_userlist_iff (config : FeatureFlagsConfig)
    (featureName : String) (user : Option UserIdentity)
    (feature : FeatureFlagConfig) (ids : List String)
    (hlook : lookupFeature config featureName = some feature)
    (hids : feature.onlyForUserIds = some ids) (hne : ids ≠ []) :
    isFeatureEnabled config featureName user = true ↔
      ∃ u uid, user = some u ∧ u.userId = some uid ∧ uid ≠ "" ∧ uid ∈ ids := by
  simp only [isFeatureEnabled, hlook, hids]
  have hlen : ids.length > 0 := List.length_pos.mpr hne
  simp only [hlen, if_true]
  cases user with
  | none => simp
  | some u =>
    cases h : u.userId with
    | none => simp [h]
    | some uid =>
      by_cases he : uid = ""
      · subst he
        simp [h]
      · simp [h, he, List.elem_iff]

def cfgUserList : FeatureFlagsConfig :=
  ⟨[("beta", ⟨some (JVal.bool false), some ["user-123", "user-456"], none⟩)]⟩

/-- C1 witness: the amended theorem applied to a rule with
`enabled = false` and list `["user-123", "user-456"]` and the matching user
`user-123`. -/
theorem isFeatureEnabled_userlist_iff_witness :
    isFeatureEnabled cfgUserList "beta" (some ⟨some ("user-123"), none, none⟩) = true :=
  (isFeatureEnabled_userlist_iff cfgUserList "beta"
      (some ⟨some ("user-123"), none, none⟩) _ ["user-123", "user-456"]
      rfl rfl (by decide)).mpr
    ⟨⟨some ("user-123"), none, none⟩, "user-123", rfl, rfl, by decide, by decide⟩

/-- C2: a rule whose `onlyForUserIds` is present but the empty list is not
treated as "restrict to nobody": the evaluator falls through to the
`enabled` check — the `enabled` boolean when the key is present, `false`
otherwise. -/
theorem isFeatureEnabled_empty_userlist (config : FeatureFlagsConfig)
    (featureName : String) (user : Option UserIdentity)
    (feature : FeatureFlagConfig)
    (hlook : lookupFeature config featureName = some feature)
    (hids : feature.onlyForUserIds = some []) :
    (∀ b : Bool, feature.enabled = some (JVal.bool b) →
        isFeatureEnabled config featureName user = b)
    ∧ (feature.enabled = none → isFeatureEnabled config featureName user = false) := by
  simp only [isFeatureEnabled, hlook, hids]
  simp only [List.length_nil, gt_iff_lt, lt_self_iff_false, if_false]
  constructor
  · intro b hb
    unfold enabledFlag
    rw [hb]
    cases b <;> simp [JVal.beq, (· == ·)]
  · intro hb
    unfold enabledFlag
    rw [hb]

def cfgEmptyList : FeatureFlagsConfig :=
  ⟨[("gamma", ⟨some (JVal.bool true), some [], none⟩)]⟩

/-- C2 witness: a rule with `onlyForUserIds = []` and `enabled = true`
evaluates to `true` with no user supplied. -/
theorem isFeatureEnabled_empty_userlist_witness :
    isFeatureEnabled cfgEmptyList "gamma" none = true :=
  (isFeatureEnabled_empty_userlist cfgEmptyList "gamma" none _ rfl rfl).1 true rfl

/-- C4: a feature name absent from the `features` map evaluates to `false`
for every configuration and every optional user.  `isFeatureEnabled` is a
total function of its inputs by construction, mirroring the source's
catch-all that downgrades every internal failure to `false`, so no
evaluation can raise. -/
theorem isFeatureEnabled_absent_false (config : FeatureFlagsConfig)
    (featureName : String) (user : Option UserIdentity)
    (h : lookupFeature config featureName = none) :
    isFeatureEnabled config featureName user = false := by
  simp only [isFeatureEnabled, h]

/-- C4 witness: the empty configuration evaluates any name to `false`. -/
theorem isFeatureEnabled_absent_false_witness :
    isFeatureEnabled emptyConfig "missing" none = false :=
  isFeatureEnabled_absent_false emptyConfig "missing" none rfl

/-- C9: when a rule's non-empty `onlyForUserIds` contains the empty string,
a supplied user whose `userId` is the empty string still evaluates to
`false`: the `user?.userId` truthiness test rejects the empty string before
list membership is consulted, exactly as for an absent `userId`. -/
theorem isFeatureEnabled_empty_userId_false (config : FeatureFlagsConfig)
    (featureName : String) (feature : FeatureFlagConfig) (ids : List String)
    (u : UserIdentity)
    (hlook : lookupFeature config featureName = some feature)
    (hids : feature.onlyForUserIds = some ids) (hne : ids ≠ [])
    (_hmem : "" ∈ ids)
    (hu : u.userId = some ("")) :
    isFeatureEnabled config featureName (some u) = false := by
  simp only [isFeatureEnabled, hlook, hids, hu]
  have hlen : ids.length > 0 := List.length_pos.mpr hne
  simp [hlen]

/-- C9 witness: rule list `[""]`, user with `userId = ""`. -/
theorem isFeatureEnabled_empty_userId_false_witness :
    isFeatureEnabled cfgEmptyIdOnly "beta" (some userEmptyId) = false :=
  isFeatureEnabled_empty_userId_false cfgEmptyIdOnly "beta" ruleEmptyIdOnly
    [""] userEmptyId rfl rfl (by decide) (by simp) rfl

/-- C5: `isAnyFeatureEnabled` is the left-to-right OR of the individual
evaluations and `areAllFeaturesEnabled` the left-to-right AND (`some` /
`every`, whose short-circuiting is unobservable for the pure, total
evaluation function); on the empty list they return `false` and `true`
respectively. -/
theorem batch_operations_or_and (config : FeatureFlagsConfig)
    (featureNames : List String) (user : Option UserIdentity) :
    (isAnyFeatureEnabled config featureNames user
      = featureNames.foldr (fun name acc => isFeatureEnabled config name user || acc) false)
    ∧ (areAllFeaturesEnabled config featureNames user
      = featureNames.foldr (fun name acc => isFeatureEnabled config name user && acc) true)
    ∧ isAnyFeatureEnabled config [] user = false
    ∧ areAllFeaturesEnabled config [] user = true := by
  refine ⟨?_, ?_, rfl, rfl⟩
  · induction featureNames with
    | nil => rfl
    | cons n ns ih =>
      simp only [isAnyFeatureEnabled, List.any_cons, List.foldr_cons] at ih ⊢
      rw [ih]
  · induction featureNames with
    | nil => rfl
    | cons n ns ih =>
      simp only [areAllFeaturesEnabled, List.all_cons, List.foldr_cons] at ih ⊢
      rw [ih]

/-- C3: `getConfig` never raises (it is total by construction) and: with a
populated cache it returns the cached configuration unchanged; with an
empty cache and neither transport variable defined, or a transport string
that fails to parse, it populates the cache with the empty configuration
and returns it. -/
theorem getConfig_cache_and_fallback
    (parse : String → Option FeatureFlagsConfig) (env : EnvVars) :
    (∀ cfg, getConfig parse env (some cfg) = (cfg, some cfg))
    ∧ (env.featureFlagsConfigVar = none → env.ffxlConfigVar = none →
        getConfig parse env none = (emptyConfig, some emptyConfig))
    ∧ (∀ s, transportString env = some s → parse s = none →
        getConfig parse env none = (emptyConfig, some emptyConfig)) := by
  refine ⟨fun cfg => rfl, ?_, ?_⟩
  · intro h1 h2
    simp only [getConfig, transportString, h1, h2, strTruthy]
    rfl
  · intro s hs hp
    simp only [getConfig, hs]
    by_cases he : s = ""
    · simp [he]
    · simp [he, hp]

/-- C3 witness: the three conjuncts applied at concrete states: a populated
cache is returned unchanged; undefined transport variables give the empty
configuration; a defined transport string rejected by the parser gives the
empty configuration. -/
theorem getConfig_cache_and_fallback_witness :
    getConfig (fun _ => none) ⟨none, none⟩ (some cfgUserList)
      = (cfgUserList, some cfgUserList)
    ∧ getConfig (fun _ => none) ⟨none, none⟩ none
      = (emptyConfig, some emptyConfig)
    ∧ getConfig (fun _ => none) ⟨some ("not json"), none⟩ none
      = (emptyConfig, some emptyConfig) :=
  ⟨(getConfig_cache_and_fallback (fun _ => none) ⟨none, none⟩).1 cfgUserList,
   (getConfig_cache_and_fallback (fun _ => none) ⟨none, none⟩).2.1 rfl rfl,
   (getConfig_cache_and_fallback (fun _ => none) ⟨some ("not json"), none⟩).2.2
     "not json" rfl rfl⟩

def docMissingBoth : JVal :=
  JVal.obj [("features", JVal.obj [("f", JVal.obj [("comment", JVal.str "x")])])]

def docBadComment : JVal :=
  JVal.obj [("features",
    JVal.obj [("f", JVal.obj [("enabled", JVal.bool true), ("comment", JVal.num 5)])])]

def docBadIds : JVal :=
  JVal.obj [("features",
    JVal.obj [("f", JVal.obj [("onlyForUserIds", JVal.arr [JVal.str "a", JVal.num 1])])])]

def docNoFeatures : JVal :=
  JVal.obj [("other", JVal.bool true)]

def docTwoViolations : JVal :=
  JVal.obj [("features", JVal.obj [("f", JVal.obj [("comment", JVal.num 5)])])]

/-- C6: validation fails with a `FeatureFlagValidationError` on each of the
four documents — a feature entry missing both `enabled` and
`onlyForUserIds`; a `comment` that is not a string; an `onlyForUserIds`
containing a non-string element; a top-level document without a `features`
key — and it stops at the first violation found: the reported message is
the one for the earliest failing check (the last conjunct has both a
missing-both violation and a non-string `comment`, and only the earlier,
missing-both message is reported). -/
theorem validateConfig_rejections :
    validateConfig docMissingBoth
      = Except.error ("Feature \"f\" must have either \"enabled\" or \"onlyForUserIds\" property")
    ∧ validateConfig docBadComment
      = Except.error ("Feature \"f\": \"comment\" must be a string")
    ∧ validateConfig docBadIds
      = Except.error ("Feature \"f\": all items in \"onlyForUserIds\" must be strings")
    ∧ validateConfig docNoFeatures
      = Except.error ("Configuration must have a \"features\" property")
    ∧ validateConfig docTwoViolations
      = Except.error ("Feature \"f\" must have either \"enabled\" or \"onlyForUserIds\" property") :=
  ⟨rfl, rfl, rfl, rfl, rfl⟩

def worldMissingFile : LoaderWorld :=
  ⟨true, none, none, "/proj", fun _ => false, fun _ => "",
    fun _ => Except.error ("unused")⟩

/-- C7 counterexample: in a Node environment whose resolved source path
(`/proj/feature-flags.yaml`) does not exist, `loadFeatureFlags` fails with
the repository's `FeatureFlagValidationError` (`src/loader.ts` line 109) —
not with an error kind distinct from the validation error: the library
defines no `NotFoundError` at all (`src/types.ts` declares only
`FeatureFlagValidationError`, and `LoadError` accordingly has no
not-found constructor). -/
theorem loadFeatureFlags_missing_file_cex :
    loadFeatureFlags worldMissingFile
      = Except.error (LoadError.validationError
          ("Feature flags file not found: /proj/feature-flags.yaml")) := rfl

/-- C7 (amended): whenever the resolved source file path does not exist,
`loadFeatureFlags` fails with a `FeatureFlagValidationError` whose message
names the missing path; the library has no separate `NotFoundError` kind. -/
theorem loadFeatureFlags_missing_file (w : LoaderWorld)
    (hnode : w.isNode = true)
    (hmiss : w.fileExists (getFeatureFlagsPath w) = false) :
    loadFeatureFlags w
      = Except.error (LoadError.validationError
          ("Feature flags file not found: " ++ getFeatureFlagsPath w)) := by
  simp only [loadFeatureFlags, hnode, hmiss, Bool.not_true, Bool.false_eq_true,
    if_false, Bool.not_false, if_true]

/-- C7 witness: the amended theorem applied to the concrete world with no
file present. -/
theorem loadFeatureFlags_missing_file_witness :
    loadFeatureFlags worldMissingFile
      = Except.error (LoadError.validationError
          ("Feature flags file not found: " ++ getFeatureFlagsPath worldMissingFile)) :=
  loadFeatureFlags_missing_file worldMissingFile rfl rfl

/-- C8: round-trip through the transport string.  For every configuration
that passes validation, serializing it (`loadFeatureFlagsAsString`'s
`JSON.stringify` step) and reconstructing it through `getConfig` with an
empty cache and the transport variable set to that string yields the
original configuration exactly — hence an evaluator-equivalent one:
`isFeatureEnabled` agrees on every feature name and every optional user.
The hypothesis `hrt` is the external JSON builtins' contract that parsing
a stringified value gives the value back; `hne` records that
`JSON.stringify` of an object is never the empty string. -/
theorem roundTrip_evaluator_equivalent
    (stringify : FeatureFlagsConfig → String)
    (parse : String → Option FeatureFlagsConfig)
    (cfg : FeatureFlagsConfig)
    (_hvalid : validConfigStruct cfg = true)
    (hrt : parse (loadFeatureFlagsAsStringOf stringify cfg) = some cfg)
    (hne : loadFeatureFlagsAsStringOf stringify cfg ≠ "") :
    getConfig parse ⟨some (loadFeatureFlagsAsStringOf stringify cfg), none⟩ none
      = (cfg, some cfg)
    ∧ ∀ featureName user,
        isFeatureEnabled
          (getConfig parse
            ⟨some (loadFeatureFlagsAsStringOf stringify cfg), none⟩ none).1
          featureName user
        = isFeatureEnabled cfg featureName user := by
  have hts : transportString ⟨some (loadFeatureFlagsAsStringOf stringify cfg), none⟩
      = some (loadFeatureFlagsAsStringOf stringify cfg) := by
    simp [transportString, strTruthy, hne]
  have hg : getConfig parse
      ⟨some (loadFeatureFlagsAsStringOf stringify cfg), none⟩ none = (cfg, some cfg) := by
    simp only [getConfig, hts]
    simp [hne, hrt]
  exact ⟨hg, fun featureName user => by rw [hg]⟩

def cfgRoundTrip : FeatureFlagsConfig :=
  ⟨[("f", ⟨some (JVal.bool true), none, none⟩)]⟩

/-- C8 witness: a concrete codec pair satisfying the JSON contract on the
concrete valid configuration; the reconstructed configuration evaluates
`f` identically to the original. -/
theorem roundTrip_evaluator_equivalent_witness :
    isFeatureEnabled
      (getConfig (fun s => if s == "serialized" then some cfgRoundTrip else none)
        ⟨some (loadFeatureFlagsAsStringOf (fun _ => "serialized") cfgRoundTrip), none⟩
        none).1
      "f" none
    = isFeatureEnabled cfgRoundTrip "f" none :=
  (roundTrip_evaluator_equivalent (fun _ => "serialized")
      (fun s => if s == "serialized" then some cfgRoundTrip else none)
      cfgRoundTrip (by decide) rfl (by decide)).2 "f" none

/-- C10: the Config Store performs no re-validation — a successfully parsed
transport string is cached and returned exactly as the parser produced it —
and the evaluator compares `enabled` strictly against the boolean `true`:
a rule whose `enabled` holds any other value (another boolean is covered
separately; here any non-`true` JSON value such as a string or a number)
and whose `onlyForUserIds` is absent or empty evaluates to `false` rather
than raising or coercing. -/
theorem getConfig_no_revalidation_and_strict_true :
    (∀ (parse : String → Option FeatureFlagsConfig) (env : EnvVars) s cfg,
        transportString env = some s → s ≠ "" → parse s = some cfg →
        getConfig parse env none = (cfg, some cfg))
    ∧ (∀ (config : FeatureFlagsConfig) (featureName : String)
        (user : Option UserIdentity) (feature : FeatureFlagConfig) (v : JVal),
        lookupFeature config featureName = some feature →
        feature.enabled = some v → v ≠ JVal.bool true →
        (feature.onlyForUserIds = none ∨ feature.onlyForUserIds = some []) →
        isFeatureEnabled config featureName user = false) := by
  constructor
  · intro parse env s cfg hs hne hp
    simp only [getConfig, hs]
    simp [hne, hp]
  · intro config featureName user feature v hlook hv hne hids
    have hflag : enabledFlag feature = false := by
      unfold enabledFlag
      rw [hv]
      by_contra hcon
      simp only [Bool.not_eq_false] at hcon
      exact hne ((JVal.beq_bool_true_iff v).mp hcon)
    cases hids with
    | inl h => simp only [isFeatureEnabled, hlook, h, hflag]
    | inr h =>
      simp only [isFeatureEnabled, hlook, h, List.length_nil, gt_iff_lt,
        lt_self_iff_false, if_false, hflag]

def cfgStringEnabled : FeatureFlagsConfig :=
  ⟨[("f", ⟨some (JVal.str "yes"), none, none⟩)]⟩

/-- C10 witness: both conjuncts at concrete inputs — a parse result is
cached verbatim, and a rule with `enabled` holding the string `"yes"`
evaluates to `false`. -/
theorem getConfig_no_revalidation_and_strict_true_witness :
    getConfig (fun _ => some cfgStringEnabled) ⟨some ("x"), none⟩ none
      = (cfgStringEnabled, some cfgStringEnabled)
    ∧ isFeatureEnabled cfgStringEnabled "f" none = false :=
  ⟨getConfig_no_revalidation_and_strict_true.1 (fun _ => some cfgStringEnabled)
      ⟨some ("x"), none⟩ "x" cfgStringEnabled rfl (by decide) rfl,
   getConfig_no_revalidation_and_strict_true.2 cfgStringEnabled "f" none
      ⟨some (JVal.str "yes"), none, none⟩ (JVal.str "yes") rfl rfl
      (fun h => JVal.noConfusion h) (Or.inl rfl)⟩
